import Mathlib

/-!
Verification of the translation-chain library (core in `core/index.ts`, store in
`react/chain.tsx`).

Shallow embedding conventions:
* A JS plain object used as a locale → text record is modelled as an association
  list `List (String × String)`; `objLookup` models property read
  (`translations[k]`, giving `undefined` = `none` when absent) and `objInsert`
  models the spread update `\x7b ...old, [k]: v \x7d`, which overwrites the value of
  an existing key in place and otherwise appends the new key at the end.
* `Option String` models `string | null | undefined` argument positions
  (`none` = null/undefined) and `undefined`-able results.
* The proxy in the `TranslationBuilder` constructor handles a property read in
  two branches: built-in members (`prop in target`, or a symbol) are forwarded,
  and every other property name is treated as a locale accessor.  We model the
  locale-accessor branch (`accessorCall`); locale identifiers are assumed not
  to collide with built-in `String`/builder member names, which is the
  intended use of the proxy.
* A JS value that is either a builder or an already-collapsed primitive is
  `Value`; calling a locale accessor on a collapsed primitive is the runtime
  error the spec calls `InvalidOperation` (a plain string has no such method).
-/

/-- Model of `TranslationBuilderConfig` (core/index.ts lines 79-84).  The
optional `returnPrimitive` flag is a `Bool` (`undefined` behaves as `false`). -/
structure TranslationBuilderConfig where
  supportedLocales : List String
  baseLocale : String
  returnPrimitive : Bool
  currentLocale : String
deriving DecidableEq

/-- Model of property read `m[k]` on a JS record: the value at the first (and,
for objects, only) occurrence of key `k`, `none` when the key is absent. -/
def objLookup (m : List (String × String)) (k : String) : Option String :=
  (m.find? (fun p => p.1 == k)).map Prod.snd

/-- Model of the JS spread update `\x7b ...m, [k]: v \x7d`: if `k` is already a key
its value is replaced (keeping its position), otherwise `(k, v)` is appended. -/
def objInsert (m : List (String × String)) (k v : String) : List (String × String) :=
  if m.any (fun p => p.1 == k) then
    m.map (fun p => if p.1 == k then (k, v) else p)
  else
    m ++ [(k, v)]

/-- Resolution formula `translations[currentLocale] ?? translations[baseLocale]`
(core/index.ts lines 119 and 143): the entry for the current locale when
present — `??` is nullish coalescing, so an empty string counts as present —
else the entry for the base locale, `none` only if both are absent. -/
def resolveMap (m : List (String × String)) (currentLocale baseLocale : String) : Option String :=
  (objLookup m currentLocale).or (objLookup m baseLocale)

/-- Model of the runtime state of a `TranslationBuilder` (core/index.ts
lines 86-145): its config and the accumulated locale → text record. -/
structure TranslationBuilder where
  config : TranslationBuilderConfig
  translations : List (String × String)
deriving DecidableEq

/-- Completeness check `supportedLocales.every((locale) => locale in newTranslations)`
(core/index.ts line 114). -/
def hasAllLocales (cfg : TranslationBuilderConfig) (m : List (String × String)) : Bool :=
  cfg.supportedLocales.all (fun locale => m.any (fun p => p.1 == locale))

/-- A runtime value produced by an accessor call: either a further builder
(chain) or a JS primitive.  `prim none` models the `undefined` that the
collapse branch would produce if neither the current- nor base-locale entry
existed (shown unreachable for chains built by the library). -/
inductive Value where
  | chain (b : TranslationBuilder)
  | prim (s : Option String)
deriving DecidableEq

/-- Error kinds of the error-handling design: `InvalidOperation` is a locale
accessor invoked on an already-collapsed primitive (at runtime, a TypeError
because a plain string has no such method); `InvalidArgument` is the error the
spec assigns to a null base-locale text. -/
inductive TransError where
  | invalidOperation
  | invalidArgument
deriving DecidableEq

/-- The record built first by an accessor call (core/index.ts lines 107-110,
`const newTranslations = ...`): the old record plus the entry for `prop` when a
text is given, an unchanged copy when the text is null/undefined. -/
def newTranslationsOf (b : TranslationBuilder) (prop : String) (text : Option String) :
    List (String × String) :=
  match text with
  | some t => objInsert b.translations prop t
  | none => b.translations

/-- The function the proxy returns for a locale property (core/index.ts
lines 105-127): build `newTranslations` (skipping a null/undefined text), in
`returnPrimitive` mode collapse to the resolved primitive once every supported
locale is present, otherwise return a new builder with the updated record. -/
def accessorCall (b : TranslationBuilder) (prop : String) (text : Option String) : Value :=
  if b.config.returnPrimitive then
    if hasAllLocales b.config (newTranslationsOf b prop text) then
      Value.prim
        (resolveMap (newTranslationsOf b prop text) b.config.currentLocale b.config.baseLocale)
    else
      Value.chain ⟨b.config, newTranslationsOf b prop text⟩
  else
    Value.chain ⟨b.config, newTranslationsOf b prop text⟩

/-- Model of `TranslationBuilder.toString` (core/index.ts lines 141-144); the
`Symbol.toPrimitive` hook and `valueOf` (lines 133-139) both delegate to it,
so all three stringification routes share this one definition.  The result is
`Option String` because the source applies a non-null assertion to
`translations[baseLocale]`. -/
def TranslationBuilder.toString (b : TranslationBuilder) : Option String :=
  resolveMap b.translations b.config.currentLocale b.config.baseLocale

/-- Invoking a locale accessor on a runtime value: on a builder the proxy
supplies the accessor and the call succeeds; on a collapsed primitive string
the property is `undefined` and the call fails (`InvalidOperation`). -/
def valueAccess : Value → String → Option String → Except TransError Value
  | Value.chain b, prop, text => Except.ok (accessorCall b prop text)
  | Value.prim _, _, _ => Except.error TransError.invalidOperation

/-- Forcing a runtime value to its string: a builder resolves via `toString`,
a collapsed primitive is already resolved. -/
def valueResolve : Value → Option String
  | Value.chain b => b.toString
  | Value.prim s => s

/-- Whether a runtime value is still a chain (a builder) rather than a
collapsed primitive. -/
def Value.isChain : Value → Bool
  | Value.chain _ => true
  | Value.prim _ => false

/-- Model of `createTranslationFunction` applied to a base text (core/index.ts
lines 164-180): a fresh builder seeded with the base-locale entry only. -/
def createTranslationFunction (cfg : TranslationBuilderConfig) (baseText : String) : TranslationBuilder :=
  ⟨cfg, [(cfg.baseLocale, baseText)]⟩

/-- The builders reachable from the library API with a fixed config: a freshly
created chain, and any chain returned by a locale-accessor call on a reachable
chain. -/
inductive Reachable (cfg : TranslationBuilderConfig) : TranslationBuilder → Prop where
  | create (baseText : String) : Reachable cfg (createTranslationFunction cfg baseText)
  | step (b b' : TranslationBuilder) (prop : String) (text : Option String) :
      Reachable cfg b → accessorCall b prop text = Value.chain b' → Reachable cfg b'

/-- Model of `detectLocale` (core/index.ts lines 148-161).  Each list element
is the result of invoking the corresponding detector, in order; the loop keeps
the first result that is truthy (`detectedLocale && ...`, so non-null AND
non-empty) and a member of the supported locales, else falls back. -/
def detectLocale (supportedLocales : List String) (fallbackLocale : String) :
    List (Option String) → String
  | [] => fallbackLocale
  | detected :: rest =>
    match detected with
    | some l =>
      if l != "" && supportedLocales.contains l then l
      else detectLocale supportedLocales fallbackLocale rest
    | none => detectLocale supportedLocales fallbackLocale rest

/-- A JS primitive that can appear as an enum member value: a string or a
number (enum values in the source are `string | number`; numeric enum values
are modelled as integers). -/
inductive JsVal where
  | s (v : String)
  | n (v : Int)
deriving DecidableEq

/-- JS strict equality `===` restricted to the string/number primitives of an
enum domain: values of different primitive types are never equal. -/
def jsStrictEq : JsVal → JsVal → Bool
  | JsVal.s a, JsVal.s b => a == b
  | JsVal.n a, JsVal.n b => a == b
  | _, _ => false

/-- JS `String(value)` on an enum-member primitive. -/
def jsString : JsVal → String
  | JsVal.s v => v
  | JsVal.n v => ToString.toString v

/-- Model of the lookup function returned by `createLabel` (core/index.ts
lines 182-196).  `enumObj` is the enum record as an association list in key
order; `translations` maps each enum key to the resolved string of its
complete chain (a complete chain behaves as its resolved string wherever a
string is expected).  The loop returns `translations[key]` for the first key
whose value or name strictly equals the input — `none` models the `undefined`
read if that key were missing from `translations` — and falls back to
`String(value)` when no key matches. -/
def createLabel (enumObj : List (String × JsVal)) (translations : List (String × String))
    (value : JsVal) : Option String :=
  match enumObj.find? (fun kv => jsStrictEq kv.2 value || jsStrictEq (JsVal.s kv.1) value) with
  | some kv => objLookup translations kv.1
  | none => some (jsString value)

/-- Observable state of the react translation store (react/chain.tsx
lines 105-147), abstracted to what each field is bound to: `locale` is
`translationStore.locale`, `holderCurrent` is `localeHolder.current`,
`tBoundLocale` / `labelsBoundLocale` record which locale the live
chain-producing function and the live label set were generated with (both are
produced by `createTFunction`, which reads `localeHolder.current` at the
moment it runs), and `persisted` is the last `(key, value)` pair written
through the storage adapter. -/
structure StoreState where
  locale : String
  holderCurrent : String
  tBoundLocale : String
  labelsBoundLocale : String
  persisted : Option (String × String)
deriving DecidableEq

/-- The field updates of `changeLocale` that precede the callback
(react/chain.tsx lines 136-141), in statement order: set
`translationStore.locale`, set `localeHolder.current`, regenerate `t` (which
reads the holder), regenerate the labels (which read the holder again). -/
def applyLocaleUpdates (s : StoreState) (newLocale : String) : StoreState :=
  let s1 := { s with locale := newLocale }
  let s2 := { s1 with holderCurrent := newLocale }
  let s3 := { s2 with tBoundLocale := s2.holderCurrent }
  { s3 with labelsBoundLocale := s3.holderCurrent }

/-- Outcome of one `changeLocale` call: the store state the synchronously
invoked callback observes, the store state when the call returns or unwinds,
and whether an exception escaped to the caller. -/
structure ChangeLocaleResult where
  observedByCallback : StoreState
  finalStore : StoreState
  callbackThrew : Bool
deriving DecidableEq

/-- Model of `translationStore.changeLocale` (react/chain.tsx lines 135-146):
apply the field updates, invoke `onLocaleChange` on the updated state
(`cbThrows` says whether that callback throws — there is no try/catch, and the
store object was mutated in place, so a throw leaves the updates behind and
skips persistence), then, when a storage adapter with `setItem` is configured,
persist the new locale under the fixed key `locale`. -/
def changeLocale (s : StoreState) (newLocale : String) (cbThrows : Bool) (hasStorage : Bool) :
    ChangeLocaleResult :=
  let s1 := applyLocaleUpdates s newLocale
  if cbThrows then
    ⟨s1, s1, true⟩
  else
    ⟨s1, if hasStorage then { s1 with persisted := some ("locale", newLocale) } else s1, false⟩



theorem objLookup_cons_of_pos (p : String × String) (t : List (String × String)) (k : String)
    (h : (p.1 == k) = true) : objLookup (p :: t) k = some p.2 := by
  simp [objLookup, List.find?_cons, h]

theorem objLookup_cons_of_neg (p : String × String) (t : List (String × String)) (k : String)
    (h : (p.1 == k) = false) : objLookup (p :: t) k = objLookup t k := by
  simp [objLookup, List.find?_cons, h]

theorem map_update_lookup_same (m : List (String × String)) (k v : String)
    (h : m.any (fun p => p.1 == k) = true) :
    objLookup (m.map (fun p => if p.1 == k then (k, v) else p)) k = some v := by
  induction m with
  | nil => simp at h
  | cons p t ih =>
    rw [List.map_cons]
    cases hp : (p.1 == k) with
    | true =>
      rw [if_pos rfl]
      rw [objLookup_cons_of_pos (k, v) _ k (beq_self_eq_true k)]
    | false =>
      rw [if_neg Bool.false_ne_true]
      rw [objLookup_cons_of_neg p _ k hp]
      apply ih
      simpa [List.any_cons, hp] using h

theorem map_update_lookup_other (m : List (String × String)) (k v k' : String)
    (h : k' ≠ k) :
    objLookup (m.map (fun p => if p.1 == k then (k, v) else p)) k' = objLookup m k' := by
  induction m with
  | nil => rfl
  | cons p t ih =>
    rw [List.map_cons]
    cases hp : (p.1 == k) with
    | true =>
      rw [if_pos rfl]
      have hp1 : p.1 = k := beq_iff_eq.mp hp
      have hk : (k == k') = false := beq_eq_false_iff_ne.mpr (fun hkk => h hkk.symm)
      have hp' : (p.1 == k') = false := by rw [hp1]; exact hk
      rw [objLookup_cons_of_neg (k, v) _ k' hk, objLookup_cons_of_neg p t k' hp']
      exact ih
    | false =>
      rw [if_neg Bool.false_ne_true]
      cases hq : (p.1 == k') with
      | true =>
        rw [objLookup_cons_of_pos p _ k' hq, objLookup_cons_of_pos p t k' hq]
      | false =>
        rw [objLookup_cons_of_neg p _ k' hq, objLookup_cons_of_neg p t k' hq]
        exact ih

theorem objLookup_append (m₁ m₂ : List (String × String)) (k : String) :
    objLookup (m₁ ++ m₂) k = (objLookup m₁ k).or (objLookup m₂ k) := by
  unfold objLookup
  rw [List.find?_append]
  cases m₁.find? (fun p => p.1 == k) <;> rfl

theorem objLookup_eq_none_of_not_any (m : List (String × String)) (k : String)
    (h : m.any (fun p => p.1 == k) = false) :
    objLookup m k = none := by
  unfold objLookup
  have : m.find? (fun p => p.1 == k) = none := by
    rw [List.find?_eq_none]
    intro x hx hxk
    exact absurd hxk (List.any_eq_false.mp h x hx)
  rw [this]
  rfl

theorem objLookup_objInsert_same (m : List (String × String)) (k v : String) :
    objLookup (objInsert m k v) k = some v := by
  unfold objInsert
  cases h : m.any (fun p => p.1 == k) with
  | true =>
    rw [if_pos rfl]
    exact map_update_lookup_same m k v h
  | false =>
    rw [if_neg Bool.false_ne_true, objLookup_append,
      objLookup_eq_none_of_not_any m k h]
    rw [objLookup_cons_of_pos (k, v) [] k (beq_self_eq_true k)]
    rfl

theorem objLookup_objInsert_other (m : List (String × String)) (k v k' : String)
    (h : k' ≠ k) :
    objLookup (objInsert m k v) k' = objLookup m k' := by
  unfold objInsert
  cases hm : m.any (fun p => p.1 == k) with
  | true =>
    rw [if_pos rfl]
    exact map_update_lookup_other m k v k' h
  | false =>
    rw [if_neg Bool.false_ne_true, objLookup_append]
    have hk : (k == k') = false := beq_eq_false_iff_ne.mpr (fun hkk => h hkk.symm)
    rw [objLookup_cons_of_neg (k, v) [] k' hk]
    cases objLookup m k' <;> rfl

theorem objLookup_objInsert_isSome (m : List (String × String)) (k v k' : String)
    (h : (objLookup m k').isSome = true) :
    (objLookup (objInsert m k v) k').isSome = true := by
  by_cases hk : k' = k
  · subst hk
    rw [objLookup_objInsert_same]
    rfl
  · rw [objLookup_objInsert_other m k v k' hk]
    exact h

theorem resolveMap_of_present (m : List (String × String)) (cur base s : String)
    (h : objLookup m cur = some s) : resolveMap m cur base = some s := by
  unfold resolveMap
  rw [h]
  rfl

theorem resolveMap_of_absent (m : List (String × String)) (cur base : String)
    (h : objLookup m cur = none) : resolveMap m cur base = objLookup m base := by
  unfold resolveMap
  rw [h]
  cases objLookup m base <;> rfl

theorem resolveMap_isSome (m : List (String × String)) (cur base : String)
    (h : (objLookup m base).isSome = true) :
    (resolveMap m cur base).isSome = true := by
  unfold resolveMap
  cases hc : objLookup m cur with
  | none =>
    cases hb : objLookup m base with
    | none => rw [hb] at h; exact absurd h (by simp)
    | some s => rfl
  | some s => rfl

theorem newTranslationsOf_base_isSome (b : TranslationBuilder) (prop : String)
    (text : Option String) (k : String)
    (h : (objLookup b.translations k).isSome = true) :
    (objLookup (newTranslationsOf b prop text) k).isSome = true := by
  cases text with
  | none => exact h
  | some t => exact objLookup_objInsert_isSome b.translations prop t k h

theorem accessorCall_chain_inv (b b' : TranslationBuilder) (prop : String) (text : Option String)
    (h : accessorCall b prop text = Value.chain b') :
    b'.config = b.config ∧ b'.translations = newTranslationsOf b prop text := by
  unfold accessorCall at h
  split at h
  · split at h
    · exact absurd h (by simp)
    · cases h
      exact ⟨rfl, rfl⟩
  · cases h
    exact ⟨rfl, rfl⟩

theorem reachable_invariant (cfg : TranslationBuilderConfig) (b : TranslationBuilder)
    (h : Reachable cfg b) :
    b.config = cfg ∧ (objLookup b.translations b.config.baseLocale).isSome = true := by
  induction h with
  | create baseText =>
    refine ⟨rfl, ?_⟩
    show (objLookup [(cfg.baseLocale, baseText)] cfg.baseLocale).isSome = true
    rw [objLookup_cons_of_pos (cfg.baseLocale, baseText) [] cfg.baseLocale
      (beq_self_eq_true cfg.baseLocale)]
    rfl
  | step b b' prop text hr hacc ih =>
    obtain ⟨hcfg, htr⟩ := accessorCall_chain_inv b b' prop text hacc
    refine ⟨hcfg.trans ih.1, ?_⟩
    rw [hcfg, htr]
    exact newTranslationsOf_base_isSome b prop text b.config.baseLocale ih.2

theorem objInsert_keys_nodup (m : List (String × String)) (k v : String)
    (h : (m.map Prod.fst).Nodup) : ((objInsert m k v).map Prod.fst).Nodup := by
  unfold objInsert
  cases hm : m.any (fun p => p.1 == k) with
  | true =>
    rw [if_pos rfl]
    have hkeys : (m.map (fun p => if p.1 == k then (k, v) else p)).map Prod.fst
        = m.map Prod.fst := by
      rw [List.map_map]
      apply List.map_congr_left
      intro p hp
      show (if (p.1 == k) = true then (k, v) else p).1 = p.1
      cases hpk : (p.1 == k) with
      | true =>
        rw [if_pos rfl]
        exact (beq_iff_eq.mp hpk).symm
      | false =>
        rw [if_neg Bool.false_ne_true]
    rw [hkeys]
    exact h
  | false =>
    rw [if_neg Bool.false_ne_true, List.map_append]
    rw [List.nodup_append]
    refine ⟨h, List.nodup_singleton k, ?_⟩
    intro a ha hb
    have hak : a = k := by simpa using hb
    subst hak
    obtain ⟨p, hp, hpk⟩ := List.mem_map.mp ha
    exact absurd (beq_iff_eq.mpr hpk) (List.any_eq_false.mp hm p hp)

/-- C1: for every chain reachable from the library API (created seeded with the
base-locale text, then extended only by locale-accessor calls) and every
current locale, the resolved string — the single resolution formula shared by
`toString`, `valueOf`, the `Symbol.toPrimitive` hook, and the early-collapse
branch — equals the mapping entry for the current locale when that entry is
present and the base-locale entry otherwise; the base-locale entry is always
present (seeded at creation, never removed by any accessor call), so neither
stringification nor an early-collapse result is ever `undefined`. -/
theorem c1_resolution_never_fails (cfg : TranslationBuilderConfig) (b : TranslationBuilder)
    (h : Reachable cfg b) :
    (∀ cur s, objLookup b.translations cur = some s →
        resolveMap b.translations cur b.config.baseLocale = some s)
  ∧ (∀ cur, objLookup b.translations cur = none →
        resolveMap b.translations cur b.config.baseLocale
          = objLookup b.translations b.config.baseLocale)
  ∧ (objLookup b.translations b.config.baseLocale).isSome = true
  ∧ (∀ cur, (resolveMap b.translations cur b.config.baseLocale).isSome = true)
  ∧ (TranslationBuilder.toString b).isSome = true
  ∧ (∀ prop text o, accessorCall b prop text = Value.prim o → o.isSome = true) := by
  obtain ⟨hcfg, hbase⟩ := reachable_invariant cfg b h
  refine ⟨?_, ?_, hbase, ?_, ?_, ?_⟩
  · intro cur s hs
    exact resolveMap_of_present _ _ _ _ hs
  · intro cur hn
    exact resolveMap_of_absent _ _ _ hn
  · intro cur
    exact resolveMap_isSome _ _ _ hbase
  · exact resolveMap_isSome _ _ _ hbase
  · intro prop text o hacc
    unfold accessorCall at hacc
    split at hacc
    · split at hacc
      · cases hacc
        exact resolveMap_isSome _ _ _ (newTranslationsOf_base_isSome b prop text _ hbase)
      · exact absurd hacc (by simp)
    · exact absurd hacc (by simp)

/-- Witness for C1: a chain built by `create` then one accessor step, resolved
at the current locale. -/
theorem c1_resolution_never_fails_witness :
    (resolveMap [("en", "hello"), ("no", "hei")] "no" "en").isSome = true := by
  have hr : Reachable ⟨["en", "no"], "en", false, "no"⟩
      ⟨⟨["en", "no"], "en", false, "no"⟩, [("en", "hello"), ("no", "hei")]⟩ :=
    Reachable.step ⟨⟨["en", "no"], "en", false, "no"⟩, [("en", "hello")]⟩ _ "no" (some "hei")
      (Reachable.create "hello") (by decide)
  exact (c1_resolution_never_fails _ _ hr).2.2.2.1 "no"

/-- C2: with `returnPrimitive` enabled, the accessor call that makes the record
complete (every supported locale present) returns the resolved primitive
string itself rather than a further chain, and invoking any locale accessor on
that returned value fails with `InvalidOperation`; with `returnPrimitive`
disabled the same completing call is unaffected and still returns a chain. -/
theorem c2_early_collapse (b : TranslationBuilder) (L t : String)
    (hall : hasAllLocales b.config (objInsert b.translations L t) = true) :
    (b.config.returnPrimitive = true →
        accessorCall b L (some t) =
          Value.prim (resolveMap (objInsert b.translations L t)
            b.config.currentLocale b.config.baseLocale)
        ∧ ∀ L' t', valueAccess (accessorCall b L (some t)) L' t' =
            Except.error TransError.invalidOperation)
  ∧ (b.config.returnPrimitive = false →
        accessorCall b L (some t) = Value.chain ⟨b.config, objInsert b.translations L t⟩) := by
  have hall' : hasAllLocales b.config (newTranslationsOf b L (some t)) = true := hall
  constructor
  · intro hrp
    have he : accessorCall b L (some t) =
        Value.prim (resolveMap (objInsert b.translations L t)
          b.config.currentLocale b.config.baseLocale) := by
      unfold accessorCall
      rw [hrp, if_pos rfl, hall', if_pos rfl]
      rfl
    refine ⟨he, ?_⟩
    intro L' t'
    rw [he]
    rfl
  · intro hrp
    unfold accessorCall
    rw [hrp, if_neg Bool.false_ne_true]
    rfl

/-- Witness for C2: a two-locale config in primitive mode; the completing call
collapses and a further accessor call on the result errors. -/
theorem c2_early_collapse_witness :
    hasAllLocales ⟨["en", "no"], "en", true, "no"⟩ (objInsert [("en", "hello")] "no" "hei") = true
  ∧ valueAccess
      (accessorCall ⟨⟨["en", "no"], "en", true, "no"⟩, [("en", "hello")]⟩ "no" (some "hei"))
      "pl" (some "x") = Except.error TransError.invalidOperation := by
  refine ⟨by decide, ?_⟩
  exact ((c2_early_collapse ⟨⟨["en", "no"], "en", true, "no"⟩, [("en", "hello")]⟩ "no" "hei"
    (by decide)).1 rfl).2 "pl" (some "x")

/-- C5: a locale-accessor call with a text never mutates the record it was
called on — in this pure embedding the caller record `b.translations` is a
value the call only reads; the call builds `objInsert b.translations L s` and
returns it in a new chain (or, in primitive mode on completion, resolves it) —
and the updated record is the old one plus the entry: `L` now maps to `s`,
every other key is unchanged, keys stay unique (re-specifying an existing
locale overwrites its value in place instead of appending a duplicate key),
and a second re-specification of `L` again yields the latest value. -/
theorem c5_immutable_records (b : TranslationBuilder) (L s : String) :
    objLookup (objInsert b.translations L s) L = some s
  ∧ (∀ l, l ≠ L → objLookup (objInsert b.translations L s) l = objLookup b.translations l)
  ∧ ((b.translations.map Prod.fst).Nodup → ((objInsert b.translations L s).map Prod.fst).Nodup)
  ∧ (∀ s2, objLookup (objInsert (objInsert b.translations L s) L s2) L = some s2)
  ∧ (accessorCall b L (some s) = Value.chain ⟨b.config, objInsert b.translations L s⟩
      ∨ accessorCall b L (some s) =
          Value.prim (resolveMap (objInsert b.translations L s)
            b.config.currentLocale b.config.baseLocale)) := by
  refine ⟨objLookup_objInsert_same b.translations L s, ?_, ?_, ?_, ?_⟩
  · intro l hl
    exact objLookup_objInsert_other b.translations L s l hl
  · intro hnd
    exact objInsert_keys_nodup b.translations L s hnd
  · intro s2
    exact objLookup_objInsert_same _ L s2
  · unfold accessorCall
    cases hrp : b.config.returnPrimitive with
    | false =>
      rw [if_neg Bool.false_ne_true]
      exact Or.inl rfl
    | true =>
      rw [if_pos rfl]
      cases hall : hasAllLocales b.config (newTranslationsOf b L (some s)) with
      | false =>
        rw [if_neg Bool.false_ne_true]
        exact Or.inl rfl
      | true =>
        rw [if_pos rfl]
        exact Or.inr rfl

/-- Witness for C5: overwrite and frame at a concrete record. -/
theorem c5_immutable_records_witness :
    objLookup (objInsert [("en", "hello"), ("no", "old")] "no" "hei") "no" = some "hei"
  ∧ objLookup (objInsert [("en", "hello"), ("no", "old")] "no" "hei") "en" = some "hello"
  ∧ (((objInsert [("en", "hello"), ("no", "old")] "no" "hei").map Prod.fst).Nodup) := by
  have h := c5_immutable_records ⟨⟨["en", "no"], "en", false, "en"⟩,
    [("en", "hello"), ("no", "old")]⟩ "no" "hei"
  exact ⟨h.1, h.2.1 "en" (by decide), h.2.2.1 (by decide)⟩

/-- C9: attaching the empty string for a non-base locale stores a real entry:
when the current locale is that locale, the value returned by the accessor
call resolves to the empty string, not to the base-locale fallback — the
nullish-coalescing resolution treats only null/undefined as missing. -/
theorem c9_empty_string_is_entry (b : TranslationBuilder) (L : String)
    (_hL : L ≠ b.config.baseLocale) (hcur : b.config.currentLocale = L) :
    valueResolve (accessorCall b L (some "")) = some "" := by
  have hres : resolveMap (objInsert b.translations L "") b.config.currentLocale
      b.config.baseLocale = some "" := by
    rw [hcur]
    exact resolveMap_of_present _ _ _ _ (objLookup_objInsert_same b.translations L "")
  unfold accessorCall
  cases hrp : b.config.returnPrimitive with
  | false =>
    rw [if_neg Bool.false_ne_true]
    exact hres
  | true =>
    rw [if_pos rfl]
    cases hall : hasAllLocales b.config (newTranslationsOf b L (some "")) with
    | false =>
      rw [if_neg Bool.false_ne_true]
      exact hres
    | true =>
      rw [if_pos rfl]
      exact hres

/-- Witness for C9 at a concrete chain with current locale `no`. -/
theorem c9_empty_string_is_entry_witness :
    valueResolve (accessorCall ⟨⟨["en", "no"], "en", false, "no"⟩, [("en", "x")]⟩
      "no" (some "")) = some "" :=
  c9_empty_string_is_entry ⟨⟨["en", "no"], "en", false, "no"⟩, [("en", "x")]⟩ "no"
    (by decide) rfl

/-- C3 counterexample: a chain whose record is already complete (single-locale
config) with `returnPrimitive` enabled; the null accessor call for the
non-base locale `no` returns the collapsed resolved primitive, not a new
chain. -/
theorem c3_counterexample :
    (accessorCall ⟨⟨["en"], "en", true, "en"⟩, [("en", "x")]⟩ "no" none).isChain = false
  ∧ accessorCall ⟨⟨["en"], "en", true, "en"⟩, [("en", "x")]⟩ "no" none
      = Value.prim (some "x") := by
  decide

/-- C3 amended: for a non-base locale `L`, a null/omitted accessor call adds
no entry for `L`, and — unless the chain is already complete with
`returnPrimitive` enabled, in which case the call instead collapses to the
resolved string — it returns a new chain with the unchanged record; in every
case the returned value resolves exactly as the original chain does. -/
theorem c3_null_is_noop (b : TranslationBuilder) (L : String)
    (_hL : L ≠ b.config.baseLocale)
    (h : b.config.returnPrimitive = false ∨ hasAllLocales b.config b.translations = false) :
    accessorCall b L none = Value.chain ⟨b.config, b.translations⟩
  ∧ valueResolve (accessorCall b L none) = TranslationBuilder.toString b
  ∧ objLookup (newTranslationsOf b L none) L = objLookup b.translations L := by
  have he : accessorCall b L none = Value.chain ⟨b.config, b.translations⟩ := by
    unfold accessorCall
    cases hrp : b.config.returnPrimitive with
    | false =>
      rw [if_neg Bool.false_ne_true]
      rfl
    | true =>
      rw [if_pos rfl]
      have hall : hasAllLocales b.config b.translations = false := by
        cases h with
        | inl h1 => rw [hrp] at h1; exact absurd h1 (by simp)
        | inr h2 => exact h2
      have hall' : hasAllLocales b.config (newTranslationsOf b L none) = false := hall
      rw [hall', if_neg Bool.false_ne_true]
      rfl
  refine ⟨he, ?_, rfl⟩
  rw [he]
  rfl

/-- Witness for the amended C3 at a concrete incomplete chain. -/
theorem c3_null_is_noop_witness :
    accessorCall ⟨⟨["en", "no"], "en", false, "no"⟩, [("en", "hello")]⟩ "no" none
      = Value.chain ⟨⟨["en", "no"], "en", false, "no"⟩, [("en", "hello")]⟩ :=
  (c3_null_is_noop ⟨⟨["en", "no"], "en", false, "no"⟩, [("en", "hello")]⟩ "no"
    (by decide) (Or.inl rfl)).1

/-- C4 counterexample: calling the base-locale accessor `en` with a null text
succeeds and returns a chain with the unchanged record; no `InvalidArgument`
error is raised at runtime. -/
theorem c4_counterexample :
    valueAccess (Value.chain ⟨⟨["en", "no"], "en", false, "en"⟩, [("en", "hello")]⟩) "en" none
      = Except.ok (Value.chain ⟨⟨["en", "no"], "en", false, "en"⟩, [("en", "hello")]⟩)
  ∧ valueAccess (Value.chain ⟨⟨["en", "no"], "en", false, "en"⟩, [("en", "hello")]⟩) "en" none
      ≠ Except.error TransError.invalidArgument := by
  have h1 : valueAccess (Value.chain ⟨⟨["en", "no"], "en", false, "en"⟩,
      [("en", "hello")]⟩) "en" none
      = Except.ok (Value.chain ⟨⟨["en", "no"], "en", false, "en"⟩, [("en", "hello")]⟩) := rfl
  refine ⟨h1, ?_⟩
  rw [h1]
  intro hcontra
  exact Except.noConfusion hcontra

/-- C4 amended: the non-null string requirement on the base-locale accessor is
enforced only at the type level; at runtime a locale-accessor call on a chain
never raises any error, and invoking the base-locale accessor with a
null/omitted text behaves like any null attachment: outside the collapse case
it returns a chain with the unchanged record. -/
theorem c4_base_null_no_runtime_check (b : TranslationBuilder) (text : Option String) :
    (∀ e, valueAccess (Value.chain b) b.config.baseLocale text ≠ Except.error e)
  ∧ (b.config.returnPrimitive = false →
      accessorCall b b.config.baseLocale none = Value.chain ⟨b.config, b.translations⟩) := by
  constructor
  · intro e
    simp [valueAccess]
  · intro hrp
    unfold accessorCall
    rw [hrp, if_neg Bool.false_ne_true]
    rfl

/-- Witness for the amended C4 at a concrete chain. -/
theorem c4_base_null_no_runtime_check_witness :
    accessorCall ⟨⟨["en", "no"], "en", false, "en"⟩, [("en", "hello")]⟩ "en" none
      = Value.chain ⟨⟨["en", "no"], "en", false, "en"⟩, [("en", "hello")]⟩ :=
  (c4_base_null_no_runtime_check ⟨⟨["en", "no"], "en", false, "en"⟩,
    [("en", "hello")]⟩ none).2 rfl

/-- C6 counterexample: a detector result that is non-null and a member of the
supported locales (the empty string, with `""` among the supported locales) is
nevertheless skipped, because the loop tests JS truthiness rather than
non-nullness; the claimed result would be `""`, the code returns the
fallback. -/
theorem c6_counterexample :
    detectLocale [""] "en" [some ""] = "en"
  ∧ detectLocale [""] "en" [some ""] ≠ ""
  ∧ ([""].contains "") = true := by
  decide

/-- C6 amended: detectors are consulted in list order and the first result
that is non-null, non-empty (JS truthiness) and a member of the supported
locales wins; a null result, an empty-string result, or a result outside the
supported locales is skipped without error, and when nothing is accepted the
fallback (base) locale is returned. -/
theorem c6_detect_first_match (sup : List String) (fb : String) :
    detectLocale sup fb [] = fb
  ∧ (∀ l rest, l ≠ "" → sup.contains l = true →
      detectLocale sup fb (some l :: rest) = l)
  ∧ (∀ rest, detectLocale sup fb (none :: rest) = detectLocale sup fb rest)
  ∧ (∀ rest, detectLocale sup fb (some "" :: rest) = detectLocale sup fb rest)
  ∧ (∀ l rest, sup.contains l = false →
      detectLocale sup fb (some l :: rest) = detectLocale sup fb rest) := by
  refine ⟨rfl, ?_, ?_, ?_, ?_⟩
  · intro l rest hne hmem
    have hcond : (l != "" && sup.contains l) = true := by
      rw [hmem, Bool.and_true]
      exact bne_iff_ne.mpr hne
    show (if l != "" && sup.contains l then l else detectLocale sup fb rest) = l
    rw [if_pos hcond]
  · intro rest
    rfl
  · intro rest
    have hcond : (("" != "") && sup.contains "") = false := by simp
    show (if ("" != "") && sup.contains "" then "" else detectLocale sup fb rest) = _
    rw [hcond, if_neg Bool.false_ne_true]
  · intro l rest hmem
    show (if l != "" && sup.contains l then l else detectLocale sup fb rest) = _
    rw [hmem, Bool.and_false, if_neg Bool.false_ne_true]

/-- Witness for the amended C6: the first detector proposes a locale outside
the supported set and is skipped, the second wins. -/
theorem c6_detect_first_match_witness :
    detectLocale ["en", "no"] "en" [some "ro", some "no"] = "no" := by
  have h := c6_detect_first_match ["en", "no"] "en"
  rw [h.2.2.2.2 "ro" [some "no"] (by decide), h.2.1 "no" [] (by decide) (by decide)]

/-- C7: `changeLocale` updates the stored locale, the holder the
chain-producing function reads, the regenerated function and the regenerated
labels before the `onLocaleChange` callback fires, so a synchronously invoked
subscriber observes the new locale and labels already bound to it; after the
callback, the new locale is persisted under the fixed key `locale` exactly
when a storage adapter is configured. -/
theorem c7_changeLocale_order (s : StoreState) (newLocale : String) (hasStorage : Bool) :
    (changeLocale s newLocale false hasStorage).observedByCallback.locale = newLocale
  ∧ (changeLocale s newLocale false hasStorage).observedByCallback.holderCurrent = newLocale
  ∧ (changeLocale s newLocale false hasStorage).observedByCallback.tBoundLocale = newLocale
  ∧ (changeLocale s newLocale false hasStorage).observedByCallback.labelsBoundLocale = newLocale
  ∧ (changeLocale s newLocale false hasStorage).callbackThrew = false
  ∧ (changeLocale s newLocale false hasStorage).finalStore.locale = newLocale
  ∧ (changeLocale s newLocale false hasStorage).finalStore.persisted
      = (if hasStorage then some ("locale", newLocale) else s.persisted) := by
  cases hasStorage <;> exact ⟨rfl, rfl, rfl, rfl, rfl, rfl, rfl⟩

/-- C10: when the `onLocaleChange` callback throws, the exception escapes the
`changeLocale` call (no try/catch), the store has already been updated to the
new locale — locale field, chain-producing function and labels — and the
storage adapter write is skipped: nothing is persisted and nothing is rolled
back. -/
theorem c10_throwing_callback_not_atomic (s : StoreState) (newLocale : String)
    (hasStorage : Bool) :
    (changeLocale s newLocale true hasStorage).callbackThrew = true
  ∧ (changeLocale s newLocale true hasStorage).finalStore.locale = newLocale
  ∧ (changeLocale s newLocale true hasStorage).finalStore.holderCurrent = newLocale
  ∧ (changeLocale s newLocale true hasStorage).finalStore.tBoundLocale = newLocale
  ∧ (changeLocale s newLocale true hasStorage).finalStore.labelsBoundLocale = newLocale
  ∧ (changeLocale s newLocale true hasStorage).finalStore.persisted = s.persisted :=
  ⟨rfl, rfl, rfl, rfl, rfl, rfl⟩

/-- C8: with one (complete, already resolved) translation per domain key, the
lookup function returned by `createLabel` scans domain entries in order and
returns the translated string of the first key whose underlying value or name
strictly equals the input; an input matching no value and no name yields its
own string representation, and the lookup always produces a string (it never
throws and never reads a missing translation). -/
theorem c8_createLabel_lookup (enumObj : List (String × JsVal))
    (translations : List (String × String))
    (hcomplete : ∀ k ∈ enumObj.map Prod.fst, (objLookup translations k).isSome = true) :
    ∀ x : JsVal,
      (createLabel enumObj translations x).isSome = true
    ∧ (∀ kv, enumObj.find? (fun kv => jsStrictEq kv.2 x || jsStrictEq (JsVal.s kv.1) x)
          = some kv →
        createLabel enumObj translations x = objLookup translations kv.1)
    ∧ ((∀ kv ∈ enumObj, jsStrictEq kv.2 x = false ∧ jsStrictEq (JsVal.s kv.1) x = false) →
        createLabel enumObj translations x = some (jsString x)) := by
  intro x
  refine ⟨?_, ?_, ?_⟩
  · unfold createLabel
    cases hf : enumObj.find? (fun kv => jsStrictEq kv.2 x || jsStrictEq (JsVal.s kv.1) x) with
    | none => rfl
    | some kv =>
      exact hcomplete kv.1 (List.mem_map_of_mem Prod.fst (List.mem_of_find?_eq_some hf))
  · intro kv hf
    unfold createLabel
    rw [hf]
  · intro hnone
    unfold createLabel
    have hf : enumObj.find? (fun kv => jsStrictEq kv.2 x || jsStrictEq (JsVal.s kv.1) x)
        = none := by
      rw [List.find?_eq_none]
      intro kv hkv
      obtain ⟨h1, h2⟩ := hnone kv hkv
      simp [h1, h2]
    rw [hf]

/-- Witness for C8: a one-key domain; an unmatched input falls back to its own
string representation. -/
theorem c8_createLabel_lookup_witness :
    createLabel [("A", JsVal.n 1)] [("A", "alpha")] (JsVal.s "zzz")
      = some (jsString (JsVal.s "zzz")) :=
  ((c8_createLabel_lookup [("A", JsVal.n 1)] [("A", "alpha")] (by decide))
    (JsVal.s "zzz")).2.2 (by decide)
